import Mathlib

/-!
Verification of the two custom-resource Lambda handlers embedded in
`cloudformation/emr_servicecatalog_templates/single-account.yaml`:

* `CopyZipsFunction` (the "ObjectCopier"): `copy_objects`, `delete_objects`,
  `timeout` and `handler`;
* `CleanUpBucketonDeleteLambda` (the "BucketDrainer"): `empty_bucket`,
  `lambda_handler` and `sendResponse`.

Object storage is modelled as association lists: an unversioned bucket is a
list of (key, value) pairs, a store is a list of (bucket-name, bucket) pairs,
and a versioned bucket is a list of version entries (key, version id,
delete-marker flag), listed newest first, together with its versioning status
string and an existence flag.  Every storage-level effect an invocation makes
is recorded in an operation trace, so frame and ordering properties can be
stated about the traces.
-/

namespace EmrTemplate

/-- Contents of one unversioned bucket: association list key ↦ value. -/
abbrev OMap := List (String × String)

/-- Lookup of a key in a bucket (first binding wins). -/
def OMap.get : OMap → String → Option String
  | [], _ => none
  | (k, v) :: m, q => if k = q then some v else OMap.get m q

/-- Remove every binding of a key (S3 DeleteObject on an unversioned bucket;
deleting an absent key is a no-op). -/
def OMap.del : OMap → String → OMap
  | [], _ => []
  | (k1, v1) :: m, k => if k1 = k then OMap.del m k else (k1, v1) :: OMap.del m k

/-- Write a key (S3 PutObject / the write half of CopyObject): overwrites any
previous binding. -/
def OMap.put (m : OMap) (k v : String) : OMap :=
  (k, v) :: OMap.del m k

/-- The world seen by `CopyZipsFunction`: all buckets, by name.  A name that
was never written denotes an empty bucket. -/
abbrev Store := List (String × OMap)

/-- Contents of the named bucket. -/
def Store.getB : Store → String → OMap
  | [], _ => []
  | (n, m) :: s, q => if n = q then m else Store.getB s q

/-- Remove the named bucket's binding. -/
def Store.delB : Store → String → Store
  | [], _ => []
  | (n1, m1) :: s, b => if n1 = b then Store.delB s b else (n1, m1) :: Store.delB s b

/-- Replace the contents of the named bucket. -/
def Store.setB (s : Store) (b : String) (m : OMap) : Store :=
  (b, m) :: Store.delB s b

/-- Python exceptions that the embedded handlers can raise. -/
inductive PyErr where
  /-- `botocore` NoSuchKey, raised by `s3.copy_object` when the source object
  is missing. -/
  | noSuchKey (bucket key : String)
  /-- KeyError from a missing event / resource-property field. -/
  | keyError (field : String)
  /-- NameError from evaluating an unbound Python name. -/
  | nameError (n : String)
deriving DecidableEq, Repr

/-- One storage-level operation performed by `CopyZipsFunction`.  The batch
`s3.delete_objects` call is recorded as one `deleteKey` per listed key, in
the order the keys appear in its `Delete.Objects` list. -/
inductive S3Op where
  | copyObject (sourceBucket destBucket key : String)
  | deleteKey (bucket key : String)
deriving DecidableEq, Repr

/-- Result of running a piece of handler code: final storage state, trace of
storage operations actually performed, and the exception it raised, if any. -/
structure Run (σ ω : Type) where
  state : σ
  ops : List ω
  err : Option PyErr
deriving Repr

/-- CloudFormation custom-resource response status, as sent by
`cfnresponse.send` / `sendResponse`. -/
inductive CfnStatus where
  | SUCCESS
  | FAILED
deriving DecidableEq, Repr

/-- Status reported for a main path that raised `e` (caught by the
`except Exception` arm) or finished cleanly. -/
def statusOf : Option PyErr → CfnStatus
  | none => .SUCCESS
  | some _ => .FAILED

/-- The template's `copy_objects(source_bucket, dest_bucket, prefix, objects)`:
for each name `o` in list order, `s3.copy_object` of key `pfx ++ o` from the
source bucket to the destination bucket.  A missing source object raises, so
the loop stops there and the remaining names are not attempted. -/
def copy_objects (st : Store) (source_bucket dest_bucket pfx : String) :
    List String → Run Store S3Op
  | [] => ⟨st, [], none⟩
  | o :: rest =>
    let key := pfx ++ o
    match OMap.get (Store.getB st source_bucket) key with
    | none => ⟨st, [], some (.noSuchKey source_bucket key)⟩
    | some v =>
      let st1 := Store.setB st dest_bucket (OMap.put (Store.getB st dest_bucket) key v)
      let r := copy_objects st1 source_bucket dest_bucket pfx rest
      ⟨r.state, .copyObject source_bucket dest_bucket key :: r.ops, r.err⟩

/-- The template's `delete_objects(bucket, prefix, objects)`: a single
`s3.delete_objects` batch call whose key list is
`[prefix + o for o in objects]` in list order; each listed key is removed
from the bucket and absent keys are no-ops (the batch call does not fail on
them). -/
def delete_objects (st : Store) (bucket pfx : String) (objects : List String) :
    Run Store S3Op :=
  let keys := objects.map (fun o => pfx ++ o)
  ⟨Store.setB st bucket (keys.foldl OMap.del (Store.getB st bucket)),
   keys.map (fun k => S3Op.deleteKey bucket k),
   none⟩

/-- The event fields `handler` reads.  Resource properties are optional
because the incoming JSON may lack them (reading a missing one raises
KeyError). -/
structure CopyEvent where
  requestType : String
  sourceBucket : Option String
  destBucket : Option String
  pfx : Option String
  objects : Option (List String)

/-- Body of the `try:` block of `CopyZipsFunction.handler`: extract the four
resource properties (KeyError on a missing one, before any storage call),
then dispatch on `RequestType`: `Delete` runs the batch delete, anything
else (`Create`, `Update`) runs the copy loop. -/
def handlerBody (ev : CopyEvent) (st : Store) : Run Store S3Op :=
  match ev.sourceBucket with
  | none => ⟨st, [], some (.keyError "SourceBucket")⟩
  | some sb =>
    match ev.destBucket with
    | none => ⟨st, [], some (.keyError "DestBucket")⟩
    | some db =>
      match ev.pfx with
      | none => ⟨st, [], some (.keyError "Prefix")⟩
      | some p =>
        match ev.objects with
        | none => ⟨st, [], some (.keyError "Objects")⟩
        | some objs =>
          if ev.requestType = "Delete" then delete_objects st db p objs
          else copy_objects st sb db p objs

/-- Status the `finally:` block of `handler` reports: SUCCESS unless the body
raised (the `except Exception` arm set FAILED). -/
def handlerStatus (ev : CopyEvent) (st : Store) : CfnStatus :=
  statusOf (handlerBody ev st).err

/-- Outcomes sent to the callback URL by one `CopyZipsFunction` invocation.
The handler starts a `threading.Timer` that fires half a second before the
invocation's time budget expires and sends FAILED; the main path cancels it
in its `finally:` block just before sending its own status.  `timerFired`
says whether the timer went off before the main path cancelled it;
`mainCompleted` says whether the main path still reached its own send before
the platform terminated the invocation at the budget.  Modelled from the
spec: the platform's termination of an invocation at its time budget (the
timer and send calls themselves are in the template source). -/
def copyZipsSends (ev : CopyEvent) (st : Store) (timerFired mainCompleted : Bool) :
    List CfnStatus :=
  if timerFired then
    CfnStatus.FAILED :: (if mainCompleted then [handlerStatus ev st] else [])
  else
    [handlerStatus ev st]

/-- One entry of a versioned bucket's version listing: a stored version or a
delete marker, identified by (key, version id). -/
structure VEntry where
  key : String
  versionId : String
  isDeleteMarker : Bool
deriving DecidableEq, Repr

/-- The bucket `CleanUpBucketonDeleteLambda` drains.  `bucketExists` models
whether the bucket still exists; `versioning` is the string the
`get_bucket_versioning` response carries ("" when the response has no
`Status` member, otherwise "Enabled" or "Suspended"); `entries` is the full
version listing, newest first within a key. -/
structure Bucket where
  bucketExists : Bool
  versioning : String
  entries : List VEntry
deriving DecidableEq, Repr

/-- One storage-level operation performed by the drainer. -/
inductive DrainOp where
  /-- `s3_client.delete_object(Bucket=…, Key=key, VersionId=versionId)`. -/
  | deleteVersion (key versionId : String)
  /-- `s3_client.delete_object(Bucket=…, Key=key)` with no version id. -/
  | deleteKey (key : String)
  /-- `put_bucket_versioning(… 'Suspended')`. -/
  | suspendVersioning
deriving DecidableEq, Repr

/-- Does the entry `e` carry the given (key, version id) pair? -/
def kvMatch (k vid : String) (e : VEntry) : Bool :=
  e.key == k && e.versionId == vid

/-- Versioned delete: removes the entry with exactly this (key, version id);
removing an absent pair is a no-op. -/
def delete_object_version (b : Bucket) (k vid : String) : Bucket :=
  { b with entries := b.entries.filter (fun e => !kvMatch k vid e) }

/-- One of the inner `for` loops of the version pass: delete each listed
entry in order by its (key, version id). -/
def delManyV (b : Bucket) (es : List VEntry) : Bucket :=
  es.foldl (fun acc e => delete_object_version acc e.key e.versionId) b

/-- Body of `for page in version_iterator`: the delete-marker loop runs over
`page['DeleteMarkers']` first, then the version loop over
`page['Versions']`. -/
def drainPage (b : Bucket) (page : List VEntry) : Bucket × List DrainOp :=
  let dms := page.filter (fun e => e.isDeleteMarker)
  let vers := page.filter (fun e => !e.isDeleteMarker)
  (delManyV (delManyV b dms) vers,
   dms.map (fun e => DrainOp.deleteVersion e.key e.versionId) ++
     vers.map (fun e => DrainOp.deleteVersion e.key e.versionId))

/-- The whole `for page in version_iterator` loop over the listing's pages. -/
def drainPages (b : Bucket) : List (List VEntry) → Bucket × List DrainOp
  | [] => (b, [])
  | page :: rest =>
    let r1 := drainPage b page
    let r2 := drainPages r1.1 rest
    (r2.1, r1.2 ++ r2.2)

/-- Paginator: cut a listing into pages of at most `ps` items (the service's
bounded page size; a nonpositive page size degenerates to one page). -/
def paginate (ps : Nat) : List α → List (List α)
  | [] => []
  | a :: l =>
    if _hp : ps = 0 then [a :: l]
    else (a :: l).take ps :: paginate ps ((a :: l).drop ps)
termination_by l => l.length
decreasing_by
  simp only [List.length_drop, List.length_cons]
  exact Nat.sub_lt (Nat.succ_pos _) (Nat.pos_of_ne_zero _hp)

/-- Latest entry for a key in a newest-first listing. -/
def latestFor (entries : List VEntry) (k : String) : Option VEntry :=
  entries.find? (fun e => e.key == k)

/-- Keys reported by `list_objects_v2` (`page['Contents']`): keys whose
latest entry is a real version, not a delete marker. -/
def currentObjects (entries : List VEntry) : List String :=
  (entries.map VEntry.key).dedup.filter (fun k =>
    match latestFor entries k with
    | some e => !e.isDeleteMarker
    | none => false)

/-- Unversioned `delete_object(Bucket=…, Key=k)`.  On a never-versioned
bucket it removes the object; on a bucket whose versioning was ever enabled
(now suspended) it replaces the key's "null" version with a "null" delete
marker.  (After the version pass the bucket is empty, so the second branch
is never reached by the drainer.) -/
def delete_object_plain (b : Bucket) (k : String) : Bucket :=
  if b.versioning = "" then
    { b with entries := b.entries.filter (fun e => !(e.key == k)) }
  else
    { b with entries :=
        ⟨k, "null", true⟩ ::
          b.entries.filter (fun e => !(e.key == k && e.versionId == "null")) }

/-- Body of `for page in object_iterator`: delete each key of the page's
`Contents` in order. -/
def deleteKeysPage (b : Bucket) (page : List String) : Bucket × List DrainOp :=
  page.foldl (fun acc k => (delete_object_plain acc.1 k, acc.2 ++ [DrainOp.deleteKey k]))
    (b, [])

/-- The whole `for page in object_iterator` loop. -/
def deleteKeysPages (b : Bucket) : List (List String) → Bucket × List DrainOp
  | [] => (b, [])
  | page :: rest =>
    let r1 := deleteKeysPage b page
    let r2 := deleteKeysPages r1.1 rest
    (r2.1, r1.2 ++ r2.2)

/-- The `if status == 'Enabled'` step: suspend versioning, else leave it. -/
def suspendIfEnabled (b : Bucket) : Bucket × List DrainOp :=
  if b.versioning = "Enabled" then
    ({ b with versioning := "Suspended" }, [DrainOp.suspendVersioning])
  else (b, [])

/-- The template's `empty_bucket(bucket_name)`.  When the bucket does not
exist, `s3.Bucket(bucket_name).load()` fails; the guarding
`except ClientError:` clause then evaluates the name `ClientError`, which the
module never imports (its imports are `json`, `boto3`, `urllib3`), so the
handler path itself raises NameError instead of returning — and with boto3
versions whose `load()` does not raise, the very next call,
`get_bucket_versioning` on the missing bucket, raises an uncaught
ClientError.  Either way the missing-bucket invocation raises instead of
reaching the intended early `return`.  When the bucket exists: suspend
versioning if enabled, drain the paged version listing (delete markers
first, then versions, per page), then drain the paged `list_objects_v2`
listing. -/
def empty_bucket (ps : Nat) (b : Bucket) : Run Bucket DrainOp :=
  if b.bucketExists = false then
    ⟨b, [], some (.nameError "ClientError")⟩
  else
    let s1 := suspendIfEnabled b
    let r1 := drainPages s1.1 (paginate ps s1.1.entries)
    let r2 := deleteKeysPages r1.1 (paginate ps (currentObjects r1.1.entries))
    ⟨r2.1, s1.2 ++ r1.2 ++ r2.2, none⟩

/-- The event fields `lambda_handler` reads. -/
structure CleanupEvent where
  requestType : String
  inputBucketName : Option String

/-- Result of one `CleanUpBucketonDeleteLambda` invocation that runs to
completion: final bucket state, storage operations performed, and the status
`sendResponse` reports. -/
structure LhRes where
  state : Bucket
  ops : List DrainOp
  status : CfnStatus
deriving DecidableEq, Repr

/-- The template's `lambda_handler(event, context)`: inside `try:` it reads
`event['ResourceProperties']['inputBucketName']` (KeyError before any
storage call if absent), runs `empty_bucket` only when `RequestType` is
`Delete`, then sends SUCCESS; `except Exception` sends FAILED instead. -/
def lambda_handler (ps : Nat) (ev : CleanupEvent) (b : Bucket) : LhRes :=
  match ev.inputBucketName with
  | none => ⟨b, [], .FAILED⟩
  | some _ =>
    if ev.requestType = "Delete" then
      let r := empty_bucket ps b
      ⟨r.state, r.ops, statusOf r.err⟩
    else ⟨b, [], .SUCCESS⟩

/-- Outcomes sent to the callback URL by one `CleanUpBucketonDeleteLambda`
invocation.  This handler has no timer guard: both `sendResponse` calls sit
after the processing in `lambda_handler`, so they run only if processing
finishes within the invocation's time budget.  Modelled from the spec: the
platform's termination of an invocation at its time budget — `overran` says
whether processing was still running when the budget expired, in which case
the invocation is terminated before any send happens. -/
def cleanupSends (ps : Nat) (ev : CleanupEvent) (b : Bucket) (overran : Bool) :
    List CfnStatus :=
  if overran then [] else [(lambda_handler ps ev b).status]

/-- Is a drain operation an object/version deletion (as opposed to the
versioning toggle)? -/
def isDeletionOp : DrainOp → Bool
  | .suspendVersioning => false
  | _ => true

/-- Number of deletions in a drain trace. -/
def deletionCount (ops : List DrainOp) : Nat :=
  (ops.filter isDeletionOp).length

/-- Trace the version pass emits for one page, as the spec states it: all of
the page's delete markers, then all of its versions. -/
def pageOpsListed (page : List VEntry) : List DrainOp :=
  (page.filter (fun e => e.isDeleteMarker)).map
      (fun e => DrainOp.deleteVersion e.key e.versionId) ++
    (page.filter (fun e => !e.isDeleteMarker)).map
      (fun e => DrainOp.deleteVersion e.key e.versionId)

theorem OMap.get_del (m : OMap) (k q : String) :
    OMap.get (OMap.del m k) q = if q = k then none else OMap.get m q := by
  induction m with
  | nil =>
    simp only [OMap.del, OMap.get]
    split <;> rfl
  | cons kv m ih =>
    obtain ⟨k1, v1⟩ := kv
    by_cases h1 : k1 = k
    · rw [show OMap.del ((k1, v1) :: m) k = OMap.del m k by simp [OMap.del, h1], ih]
      by_cases hq : q = k
      · simp [hq]
      · have hk1 : ¬ k1 = q := fun h => hq (by rw [← h, h1])
        simp [OMap.get, hq, hk1]
    · rw [show OMap.del ((k1, v1) :: m) k = (k1, v1) :: OMap.del m k by
        simp [OMap.del, h1]]
      by_cases hq : q = k
      · subst hq
        simp [OMap.get, h1, ih]
      · simp only [OMap.get, ih, if_neg hq]

theorem OMap.get_put (m : OMap) (k v q : String) :
    OMap.get (OMap.put m k v) q = if q = k then some v else OMap.get m q := by
  simp only [OMap.put, OMap.get]
  by_cases hq : q = k
  · simp [hq]
  · rw [if_neg fun h : k = q => hq h.symm, if_neg hq, OMap.get_del, if_neg hq]

theorem Store.getB_delB (s : Store) (b q : String) :
    Store.getB (Store.delB s b) q = if q = b then [] else Store.getB s q := by
  induction s with
  | nil =>
    simp only [Store.delB, Store.getB]
    split <;> rfl
  | cons nm s ih =>
    obtain ⟨n1, m1⟩ := nm
    by_cases h1 : n1 = b
    · rw [show Store.delB ((n1, m1) :: s) b = Store.delB s b by simp [Store.delB, h1], ih]
      by_cases hq : q = b
      · simp [hq]
      · have hn1 : ¬ n1 = q := fun h => hq (by rw [← h, h1])
        simp [Store.getB, hq, hn1]
    · rw [show Store.delB ((n1, m1) :: s) b = (n1, m1) :: Store.delB s b by
        simp [Store.delB, h1]]
      by_cases hq : q = b
      · subst hq
        simp [Store.getB, h1, ih]
      · simp only [Store.getB, ih, if_neg hq]

theorem Store.getB_setB (s : Store) (b : String) (m : OMap) (q : String) :
    Store.getB (Store.setB s b m) q = if q = b then m else Store.getB s q := by
  simp only [Store.setB, Store.getB]
  by_cases hq : q = b
  · simp [hq]
  · rw [if_neg fun h : b = q => hq h.symm, if_neg hq, Store.getB_delB, if_neg hq]

theorem get_foldl_del (keys : List String) (m : OMap) (q : String) :
    OMap.get (keys.foldl OMap.del m) q = if q ∈ keys then none else OMap.get m q := by
  induction keys generalizing m with
  | nil => simp
  | cons k keys ih =>
    simp only [List.foldl_cons, ih, OMap.get_del, List.mem_cons]
    by_cases h1 : q ∈ keys
    · simp [h1]
    · by_cases h2 : q = k <;> simp [h1, h2]

theorem isSome_get_put (m : OMap) (k v q : String)
    (h : (OMap.get m q).isSome = true) :
    (OMap.get (OMap.put m k v) q).isSome = true := by
  rw [OMap.get_put]
  split <;> simp [h]

theorem copy_objects_frame (sb db pfx : String) (objs : List String) (st : Store) :
    (∀ bn, bn ≠ db →
      Store.getB (copy_objects st sb db pfx objs).state bn = Store.getB st bn) ∧
    (∀ q, (∀ o ∈ objs, q ≠ pfx ++ o) →
      OMap.get (Store.getB (copy_objects st sb db pfx objs).state db) q
        = OMap.get (Store.getB st db) q) := by
  induction objs generalizing st with
  | nil => exact ⟨fun _ _ => rfl, fun _ _ => rfl⟩
  | cons o rest ih =>
    cases hsrc : OMap.get (Store.getB st sb) (pfx ++ o) with
    | none =>
      simp only [copy_objects, hsrc]
      exact ⟨fun _ _ => by simp, fun _ _ => by simp⟩
    | some v =>
      simp only [copy_objects, hsrc]
      have ihs := ih (Store.setB st db (OMap.put (Store.getB st db) (pfx ++ o) v))
      constructor
      · intro bn hbn
        rw [ihs.1 bn hbn, Store.getB_setB, if_neg hbn]
      · intro q hq
        rw [ihs.2 q (fun o2 ho2 => hq o2 (List.mem_cons_of_mem _ ho2)),
          Store.getB_setB, if_pos rfl, OMap.get_put,
          if_neg (hq o (List.mem_cons_self _ _))]

theorem copy_objects_complete (sb db pfx : String) (objs : List String) (st : Store)
    (hall : ∀ o ∈ objs, (OMap.get (Store.getB st sb) (pfx ++ o)).isSome = true) :
    (copy_objects st sb db pfx objs).ops
        = objs.map (fun o => S3Op.copyObject sb db (pfx ++ o)) ∧
    (copy_objects st sb db pfx objs).err = none := by
  induction objs generalizing st with
  | nil => exact ⟨rfl, rfl⟩
  | cons o rest ih =>
    have ho := hall o (List.mem_cons_self _ _)
    cases hsrc : OMap.get (Store.getB st sb) (pfx ++ o) with
    | none => rw [hsrc] at ho; simp at ho
    | some v =>
      simp only [copy_objects, hsrc]
      have hrest : ∀ o2 ∈ rest,
          (OMap.get (Store.getB
            (Store.setB st db (OMap.put (Store.getB st db) (pfx ++ o) v)) sb)
            (pfx ++ o2)).isSome = true := by
        intro o2 ho2
        have h2 := hall o2 (List.mem_cons_of_mem _ ho2)
        rw [Store.getB_setB]
        split
        · next heq => exact isSome_get_put _ _ _ _ (heq ▸ h2)
        · exact h2
      have ihs := ih _ hrest
      exact ⟨by rw [List.map_cons, ← ihs.1], ihs.2⟩

theorem copy_objects_aborts (sb db pfx bad : String) (pre post : List String)
    (st : Store)
    (hpre : ∀ o ∈ pre, (OMap.get (Store.getB st sb) (pfx ++ o)).isSome = true)
    (hbad : OMap.get (Store.getB st sb) (pfx ++ bad) = none) :
    (copy_objects st sb db pfx (pre ++ bad :: post)).err
        = some (.noSuchKey sb (pfx ++ bad)) ∧
    (copy_objects st sb db pfx (pre ++ bad :: post)).ops
        = pre.map (fun o => S3Op.copyObject sb db (pfx ++ o)) := by
  induction pre generalizing st with
  | nil => simp [copy_objects, hbad]
  | cons o pre ih =>
    have ho := hpre o (List.mem_cons_self _ _)
    cases hsrc : OMap.get (Store.getB st sb) (pfx ++ o) with
    | none => rw [hsrc] at ho; simp at ho
    | some v =>
      simp only [List.cons_append, copy_objects, hsrc]
      have hko : ¬ (pfx ++ bad) = (pfx ++ o) := by
        intro h
        rw [h, hsrc] at hbad
        exact Option.noConfusion hbad
      have hpre2 : ∀ o2 ∈ pre,
          (OMap.get (Store.getB
            (Store.setB st db (OMap.put (Store.getB st db) (pfx ++ o) v)) sb)
            (pfx ++ o2)).isSome = true := by
        intro o2 ho2
        have h2 := hpre o2 (List.mem_cons_of_mem _ ho2)
        rw [Store.getB_setB]
        split
        · next heq => exact isSome_get_put _ _ _ _ (heq ▸ h2)
        · exact h2
      have hbad2 : OMap.get (Store.getB
          (Store.setB st db (OMap.put (Store.getB st db) (pfx ++ o) v)) sb)
          (pfx ++ bad) = none := by
        rw [Store.getB_setB]
        split
        · next heq => rw [OMap.get_put, if_neg hko, ← heq, hbad]
        · exact hbad
      have ihs := ih _ hpre2 hbad2
      refine ⟨ihs.1, ?_⟩
      rw [List.map_cons, ← ihs.2]
      rfl

theorem delete_objects_getB (st : Store) (db pfx : String) (objs : List String)
    (bn : String) (hbn : bn ≠ db) :
    Store.getB (delete_objects st db pfx objs).state bn = Store.getB st bn := by
  simp only [delete_objects]
  rw [Store.getB_setB, if_neg hbn]

theorem delete_objects_get (st : Store) (db pfx : String) (objs : List String)
    (q : String) :
    OMap.get (Store.getB (delete_objects st db pfx objs).state db) q
      = if q ∈ objs.map (fun o => pfx ++ o) then none
        else OMap.get (Store.getB st db) q := by
  simp only [delete_objects]
  rw [Store.getB_setB, if_pos rfl, get_foldl_del]

theorem copy_then_delete_get (st : Store) (sb db pfx : String) (objs : List String)
    (hfresh : ∀ o ∈ objs, OMap.get (Store.getB st db) (pfx ++ o) = none)
    (q : String) :
    OMap.get (Store.getB
        (delete_objects (copy_objects st sb db pfx objs).state db pfx objs).state db) q
      = OMap.get (Store.getB st db) q := by
  rw [delete_objects_get]
  by_cases hmem : q ∈ objs.map (fun o => pfx ++ o)
  · rw [if_pos hmem]
    obtain ⟨o, ho, rfl⟩ := List.mem_map.mp hmem
    exact (hfresh o ho).symm
  · rw [if_neg hmem]
    refine (copy_objects_frame sb db pfx objs st).2 q ?_
    intro o ho hqo
    exact hmem (List.mem_map.mpr ⟨o, ho, hqo.symm⟩)

theorem delManyV_fields (es : List VEntry) (b : Bucket) :
    (delManyV b es).bucketExists = b.bucketExists ∧
    (delManyV b es).versioning = b.versioning := by
  induction es generalizing b with
  | nil => exact ⟨rfl, rfl⟩
  | cons e es ih => exact ih (delete_object_version b e.key e.versionId)

theorem drainPages_fields (pages : List (List VEntry)) (b : Bucket) :
    (drainPages b pages).1.bucketExists = b.bucketExists ∧
    (drainPages b pages).1.versioning = b.versioning := by
  induction pages generalizing b with
  | nil => exact ⟨rfl, rfl⟩
  | cons page rest ih =>
    have h1 := ih (drainPage b page).1
    have h2 := delManyV_fields (page.filter (fun e => !e.isDeleteMarker))
      (delManyV b (page.filter (fun e => e.isDeleteMarker)))
    have h3 := delManyV_fields (page.filter (fun e => e.isDeleteMarker)) b
    exact ⟨h1.1.trans (h2.1.trans h3.1), h1.2.trans (h2.2.trans h3.2)⟩

theorem mem_delManyV (es : List VEntry) (b : Bucket) (e : VEntry)
    (h : e ∈ (delManyV b es).entries) :
    e ∈ b.entries ∧ ∀ d ∈ es, kvMatch d.key d.versionId e = false := by
  induction es generalizing b with
  | nil => exact ⟨h, by simp⟩
  | cons d es ih =>
    have h2 := ih (delete_object_version b d.key d.versionId) h
    have h3 : e ∈ b.entries ∧ kvMatch d.key d.versionId e = false := by
      have hm := h2.1
      simp only [delete_object_version, List.mem_filter, Bool.not_eq_true'] at hm
      exact hm
    refine ⟨h3.1, ?_⟩
    intro d2 hd2
    rcases List.mem_cons.mp hd2 with h4 | h4
    · exact h4 ▸ h3.2
    · exact h2.2 d2 h4

theorem mem_drainPage (page : List VEntry) (b : Bucket) (e : VEntry)
    (h : e ∈ (drainPage b page).1.entries) :
    e ∈ b.entries ∧ ∀ d ∈ page, kvMatch d.key d.versionId e = false := by
  have h1 := mem_delManyV (page.filter (fun e => !e.isDeleteMarker)) _ e h
  have h2 := mem_delManyV (page.filter (fun e => e.isDeleteMarker)) b e h1.1
  refine ⟨h2.1, ?_⟩
  intro d hd
  by_cases hm : d.isDeleteMarker = true
  · exact h2.2 d (List.mem_filter.mpr ⟨hd, hm⟩)
  · exact h1.2 d (List.mem_filter.mpr ⟨hd, by simp [hm]⟩)

theorem mem_drainPages (pages : List (List VEntry)) (b : Bucket) (e : VEntry)
    (h : e ∈ (drainPages b pages).1.entries) :
    e ∈ b.entries ∧ ∀ page ∈ pages, ∀ d ∈ page, kvMatch d.key d.versionId e = false := by
  induction pages generalizing b with
  | nil => exact ⟨h, by simp⟩
  | cons page rest ih =>
    have h1 := ih (drainPage b page).1 h
    have h2 := mem_drainPage page b e h1.1
    refine ⟨h2.1, ?_⟩
    intro pg hpg
    rcases List.mem_cons.mp hpg with h4 | h4
    · exact h4 ▸ h2.2
    · exact h1.2 pg h4

theorem paginate_flatten (ps : Nat) (l : List α) : (paginate ps l).flatten = l := by
  cases l with
  | nil => simp [paginate]
  | cons a t =>
    simp only [paginate]
    by_cases hp : ps = 0
    · simp [hp]
    · rw [dif_neg hp, List.flatten_cons, paginate_flatten ps ((a :: t).drop ps),
        List.take_append_drop]
termination_by l.length
decreasing_by
  simp only [List.length_drop, List.length_cons]
  exact Nat.sub_lt (Nat.succ_pos _) (Nat.pos_of_ne_zero hp)

theorem drainPages_entries_nil (ps : Nat) (b : Bucket) :
    (drainPages b (paginate ps b.entries)).1.entries = [] := by
  rw [List.eq_nil_iff_forall_not_mem]
  intro e he
  obtain ⟨hmem, hall⟩ := mem_drainPages _ _ _ he
  have hfl : e ∈ (paginate ps b.entries).flatten := by
    rw [paginate_flatten]; exact hmem
  obtain ⟨page, hpage, hin⟩ := List.mem_flatten.mp hfl
  have := hall page hpage e hin
  simp [kvMatch] at this

theorem drainPages_ops (pages : List (List VEntry)) (b : Bucket) :
    (drainPages b pages).2 = (pages.map pageOpsListed).flatten := by
  induction pages generalizing b with
  | nil => rfl
  | cons page rest ih =>
    simp only [drainPages, List.map_cons, List.flatten_cons]
    rw [← ih (drainPage b page).1]
    rfl

theorem suspendIfEnabled_entries (b : Bucket) :
    (suspendIfEnabled b).1.entries = b.entries := by
  simp only [suspendIfEnabled]
  split <;> rfl

theorem suspendIfEnabled_bucketExists (b : Bucket) :
    (suspendIfEnabled b).1.bucketExists = b.bucketExists := by
  simp only [suspendIfEnabled]
  split <;> rfl

theorem suspendIfEnabled_not_enabled (b : Bucket) :
    ¬ (suspendIfEnabled b).1.versioning = "Enabled" := by
  simp only [suspendIfEnabled]
  split
  · intro h
    simp at h
  · next h => exact h

theorem empty_bucket_eq (ps : Nat) (b : Bucket) (hex : b.bucketExists = true) :
    empty_bucket ps b =
      ⟨(drainPages (suspendIfEnabled b).1 (paginate ps (suspendIfEnabled b).1.entries)).1,
        (suspendIfEnabled b).2 ++
          (drainPages (suspendIfEnabled b).1 (paginate ps (suspendIfEnabled b).1.entries)).2,
        none⟩ := by
  have hne : ¬ b.bucketExists = false := by simp [hex]
  simp only [empty_bucket, if_neg hne]
  have h1 : (drainPages (suspendIfEnabled b).1
      (paginate ps (suspendIfEnabled b).1.entries)).1.entries = [] :=
    drainPages_entries_nil ps (suspendIfEnabled b).1
  rw [h1]
  simp [currentObjects, paginate, deleteKeysPages]

theorem empty_bucket_on_drained (ps : Nat) (b : Bucket) (hex : b.bucketExists = true)
    (hven : ¬ b.versioning = "Enabled") (hent : b.entries = []) :
    empty_bucket ps b = ⟨b, [], none⟩ := by
  have hne : ¬ b.bucketExists = false := by simp [hex]
  have hs : suspendIfEnabled b = (b, []) := by simp [suspendIfEnabled, hven]
  simp only [empty_bucket, if_neg hne, hs, hent]
  simp [paginate, drainPages, currentObjects, deleteKeysPages, hent]

theorem empty_bucket_on_empty (ps : Nat) (b : Bucket) (hex : b.bucketExists = true)
    (hent : b.entries = []) :
    empty_bucket ps b = ⟨(suspendIfEnabled b).1, (suspendIfEnabled b).2, none⟩ := by
  have hne : ¬ b.bucketExists = false := by simp [hex]
  have hs1 : (suspendIfEnabled b).1.entries = [] := by
    rw [suspendIfEnabled_entries, hent]
  simp only [empty_bucket, hs1, if_neg hne]
  simp [paginate, drainPages, currentObjects, deleteKeysPages, hs1]

theorem deletionCount_suspendIfEnabled (b : Bucket) :
    deletionCount (suspendIfEnabled b).2 = 0 := by
  simp only [suspendIfEnabled]
  split <;> simp [deletionCount, isDeletionOp]

theorem empty_bucket_state_entries (ps : Nat) (b : Bucket)
    (hex : b.bucketExists = true) :
    (empty_bucket ps b).state.entries = [] := by
  rw [empty_bucket_eq ps b hex]
  exact drainPages_entries_nil ps (suspendIfEnabled b).1

theorem empty_bucket_state_bucketExists (ps : Nat) (b : Bucket)
    (hex : b.bucketExists = true) :
    (empty_bucket ps b).state.bucketExists = true := by
  rw [empty_bucket_eq ps b hex]
  show (drainPages (suspendIfEnabled b).1
      (paginate ps (suspendIfEnabled b).1.entries)).1.bucketExists = true
  rw [(drainPages_fields _ _).1, suspendIfEnabled_bucketExists, hex]

theorem empty_bucket_state_versioning_ne (ps : Nat) (b : Bucket)
    (hex : b.bucketExists = true) :
    ¬ (empty_bucket ps b).state.versioning = "Enabled" := by
  rw [empty_bucket_eq ps b hex]
  show ¬ (drainPages (suspendIfEnabled b).1
      (paginate ps (suspendIfEnabled b).1.entries)).1.versioning = "Enabled"
  rw [(drainPages_fields _ _).2]
  exact suspendIfEnabled_not_enabled b

theorem lambda_handler_delete (ps : Nat) (n : String) (b : Bucket) :
    lambda_handler ps ⟨"Delete", some n⟩ b
      = ⟨(empty_bucket ps b).state, (empty_bucket ps b).ops,
          statusOf (empty_bucket ps b).err⟩ := by
  simp [lambda_handler]

/-- Claim C1, corrected.  Within the time budget each handler delivers exactly
one outcome (even when the body raises, via the except/finally paths).
ObjectCopier's handler has a timer guard whose FAILED send comes first
whenever the timer fires, so at least one outcome is always sent (possibly
duplicated by the late main-path send).  BucketDrainer's handler has no
timer guard: an invocation that overruns its budget delivers no outcome at
all. -/
theorem outcome_delivery_amended (ev : CopyEvent) (st : Store) (mc : Bool)
    (ps : Nat) (evc : CleanupEvent) (b : Bucket) :
    copyZipsSends ev st false mc = [handlerStatus ev st] ∧
    (copyZipsSends ev st true mc).head? = some CfnStatus.FAILED ∧
    1 ≤ (copyZipsSends ev st true mc).length ∧
    cleanupSends ps evc b false = [(lambda_handler ps evc b).status] ∧
    cleanupSends ps evc b true = [] := by
  refine ⟨rfl, ?_, ?_, rfl, rfl⟩ <;> simp [copyZipsSends]

/-- Claim C1, counterexample to the claim as stated: a BucketDrainer
invocation that is still draining when the time budget expires sends
nothing to the callback address — there is no timeout guard in
`CleanUpBucketonDeleteLambda`, so no Failed outcome is delivered. -/
theorem drainer_timeout_no_outcome :
    cleanupSends 1000 ⟨"Delete", some "sagemaker-emr-bucket"⟩
        ⟨true, "Enabled", [⟨"k", "v1", false⟩]⟩ true = [] ∧
    cleanupSends 1000 ⟨"Delete", some "sagemaker-emr-bucket"⟩
        ⟨true, "Enabled", [⟨"k", "v1", false⟩]⟩ true ≠ [CfnStatus.FAILED] := by
  exact ⟨rfl, by simp [cleanupSends]⟩

/-- Claim C2, counterexample to the claim as stated: if the destination
already holds an object at one of the prefixed keys ("artifacts/a.sh" ↦
"old" here), Create overwrites it and Delete then removes it, so the
destination does not return to its pre-Create state. -/
theorem copy_delete_roundtrip_cex :
    ¬ (∀ q, OMap.get (Store.getB
        (delete_objects
          (copy_objects
            [("src", [("artifacts/a.sh", "new")]), ("dst", [("artifacts/a.sh", "old")])]
            "src" "dst" "artifacts/" ["a.sh"]).state
          "dst" "artifacts/" ["a.sh"]).state "dst") q
      = OMap.get (Store.getB
          [("src", [("artifacts/a.sh", "new")]), ("dst", [("artifacts/a.sh", "old")])]
          "dst") q) := by
  intro h
  exact absurd (h "artifacts/a.sh") (by decide)

/-- Claim C2, amended: for every non-empty object list and prefix, if the
destination holds no object at any of the prefixed keys beforehand, then
ObjectCopier's copy path followed by its delete-by-name path on the same
request leaves the destination with exactly its original contents (whether
or not the copy succeeded on every name). -/
theorem copy_delete_roundtrip (st : Store) (sb db pfx : String)
    (objs : List String) (_hne : objs ≠ [])
    (hfresh : ∀ o ∈ objs, OMap.get (Store.getB st db) (pfx ++ o) = none) :
    ∀ q, OMap.get (Store.getB
        (delete_objects (copy_objects st sb db pfx objs).state db pfx objs).state db) q
      = OMap.get (Store.getB st db) q :=
  fun q => copy_then_delete_get st sb db pfx objs hfresh q

/-- Witness for the amended C2 at a concrete request. -/
theorem copy_delete_roundtrip_witness :
    (["a.sh", "b.sh"] ≠ ([] : List String)) ∧
    (∀ o ∈ ["a.sh", "b.sh"],
      OMap.get (Store.getB
        [("src", [("artifacts/a.sh", "x"), ("artifacts/b.sh", "y")])] "dst")
        ("artifacts/" ++ o) = none) ∧
    ∀ q, OMap.get (Store.getB
        (delete_objects
          (copy_objects
            [("src", [("artifacts/a.sh", "x"), ("artifacts/b.sh", "y")])]
            "src" "dst" "artifacts/" ["a.sh", "b.sh"]).state
          "dst" "artifacts/" ["a.sh", "b.sh"]).state "dst") q
      = OMap.get (Store.getB
          [("src", [("artifacts/a.sh", "x"), ("artifacts/b.sh", "y")])] "dst") q :=
  ⟨by decide, by decide,
    copy_delete_roundtrip
      [("src", [("artifacts/a.sh", "x"), ("artifacts/b.sh", "y")])]
      "src" "dst" "artifacts/" ["a.sh", "b.sh"] (by decide) (by decide)⟩

/-- Claim C3: BucketDrainer is idempotent on every existing container: the
first Delete invocation reports Success and leaves no entries; running it
again returns the same (empty) end state with zero storage operations and
Success again; and on an already-empty container the first run performs
zero deletions while still reporting Success. -/
theorem drainer_idempotent (ps : Nat) (n : String) (b : Bucket)
    (hex : b.bucketExists = true) :
    (lambda_handler ps ⟨"Delete", some n⟩ b).status = CfnStatus.SUCCESS ∧
    (lambda_handler ps ⟨"Delete", some n⟩ b).state.entries = [] ∧
    lambda_handler ps ⟨"Delete", some n⟩ ((lambda_handler ps ⟨"Delete", some n⟩ b).state)
      = ⟨(lambda_handler ps ⟨"Delete", some n⟩ b).state, [], CfnStatus.SUCCESS⟩ ∧
    (b.entries = [] → deletionCount (lambda_handler ps ⟨"Delete", some n⟩ b).ops = 0) := by
  have hrun := lambda_handler_delete ps n b
  have herr : (empty_bucket ps b).err = none := by
    rw [empty_bucket_eq ps b hex]
  have hent := empty_bucket_state_entries ps b hex
  have hex2 := empty_bucket_state_bucketExists ps b hex
  have hven2 := empty_bucket_state_versioning_ne ps b hex
  have hrun2 : empty_bucket ps ((empty_bucket ps b).state)
      = ⟨(empty_bucket ps b).state, [], none⟩ :=
    empty_bucket_on_drained ps _ hex2 hven2 hent
  refine ⟨?_, ?_, ?_, ?_⟩
  · simp [hrun, herr, statusOf]
  · simp [hrun, hent]
  · simp only [hrun]
    rw [lambda_handler_delete, hrun2]
    rfl
  · intro hbe
    have hrune : empty_bucket ps b
        = ⟨(suspendIfEnabled b).1, (suspendIfEnabled b).2, none⟩ :=
      empty_bucket_on_empty ps b hex hbe
    simp [hrun, hrune, deletionCount_suspendIfEnabled]

/-- Witness for C3 at a concrete versioned container. -/
theorem drainer_idempotent_witness :
    ((⟨true, "Enabled", [⟨"k", "v1", false⟩]⟩ : Bucket).bucketExists = true) ∧
    ((lambda_handler 1 ⟨"Delete", some "bkt"⟩
        ⟨true, "Enabled", [⟨"k", "v1", false⟩]⟩).status = CfnStatus.SUCCESS ∧
      (lambda_handler 1 ⟨"Delete", some "bkt"⟩
        ⟨true, "Enabled", [⟨"k", "v1", false⟩]⟩).state.entries = [] ∧
      lambda_handler 1 ⟨"Delete", some "bkt"⟩
          ((lambda_handler 1 ⟨"Delete", some "bkt"⟩
            ⟨true, "Enabled", [⟨"k", "v1", false⟩]⟩).state)
        = ⟨(lambda_handler 1 ⟨"Delete", some "bkt"⟩
            ⟨true, "Enabled", [⟨"k", "v1", false⟩]⟩).state, [], CfnStatus.SUCCESS⟩ ∧
      ((⟨true, "Enabled", [⟨"k", "v1", false⟩]⟩ : Bucket).entries = [] →
        deletionCount (lambda_handler 1 ⟨"Delete", some "bkt"⟩
          ⟨true, "Enabled", [⟨"k", "v1", false⟩]⟩).ops = 0)) :=
  ⟨rfl, drainer_idempotent 1 "bkt" ⟨true, "Enabled", [⟨"k", "v1", false⟩]⟩ rfl⟩

/-- Claim C4: on an existing container with versioning "Enabled",
BucketDrainer ends with no versions, no delete markers, no current objects,
and versioning "Suspended"; its operation trace is the versioning
suspension followed, page by page, by the page's delete markers and then
the page's versions. -/
theorem drainer_enabled_drains_all (ps : Nat) (b : Bucket)
    (hex : b.bucketExists = true) (hen : b.versioning = "Enabled") :
    (empty_bucket ps b).err = none ∧
    (empty_bucket ps b).state.versioning = "Suspended" ∧
    (empty_bucket ps b).state.entries = [] ∧
    List.filter (fun e => e.isDeleteMarker) (empty_bucket ps b).state.entries = [] ∧
    List.filter (fun e => !e.isDeleteMarker) (empty_bucket ps b).state.entries = [] ∧
    currentObjects (empty_bucket ps b).state.entries = [] ∧
    (empty_bucket ps b).ops
      = DrainOp.suspendVersioning :: ((paginate ps b.entries).map pageOpsListed).flatten := by
  have hent := empty_bucket_state_entries ps b hex
  have hsusp : suspendIfEnabled b
      = (⟨b.bucketExists, "Suspended", b.entries⟩, [DrainOp.suspendVersioning]) := by
    simp [suspendIfEnabled, hen]
  refine ⟨?_, ?_, hent, ?_, ?_, ?_, ?_⟩
  · rw [empty_bucket_eq ps b hex]
  · rw [empty_bucket_eq ps b hex]
    show (drainPages (suspendIfEnabled b).1
        (paginate ps (suspendIfEnabled b).1.entries)).1.versioning = "Suspended"
    rw [(drainPages_fields _ _).2, hsusp]
  · rw [hent]; rfl
  · rw [hent]; rfl
  · rw [hent]; simp [currentObjects]
  · rw [empty_bucket_eq ps b hex]
    show (suspendIfEnabled b).2 ++ (drainPages (suspendIfEnabled b).1
        (paginate ps (suspendIfEnabled b).1.entries)).2
      = DrainOp.suspendVersioning :: ((paginate ps b.entries).map pageOpsListed).flatten
    rw [drainPages_ops, hsusp]
    simp

/-- Witness for C4 on a container holding versions and a delete marker,
drained with page size 2. -/
theorem drainer_enabled_drains_all_witness :
    ((⟨true, "Enabled",
        [⟨"k1", "v1", false⟩, ⟨"k1", "m1", true⟩, ⟨"k2", "v2", false⟩]⟩ : Bucket).bucketExists
        = true) ∧
    ((⟨true, "Enabled",
        [⟨"k1", "v1", false⟩, ⟨"k1", "m1", true⟩, ⟨"k2", "v2", false⟩]⟩ : Bucket).versioning
        = "Enabled") ∧
    ((empty_bucket 2 ⟨true, "Enabled",
        [⟨"k1", "v1", false⟩, ⟨"k1", "m1", true⟩, ⟨"k2", "v2", false⟩]⟩).err = none ∧
      (empty_bucket 2 ⟨true, "Enabled",
        [⟨"k1", "v1", false⟩, ⟨"k1", "m1", true⟩, ⟨"k2", "v2", false⟩]⟩).state.versioning
        = "Suspended" ∧
      (empty_bucket 2 ⟨true, "Enabled",
        [⟨"k1", "v1", false⟩, ⟨"k1", "m1", true⟩, ⟨"k2", "v2", false⟩]⟩).state.entries = [] ∧
      List.filter (fun e => e.isDeleteMarker)
        (empty_bucket 2 ⟨true, "Enabled",
          [⟨"k1", "v1", false⟩, ⟨"k1", "m1", true⟩, ⟨"k2", "v2", false⟩]⟩).state.entries = [] ∧
      List.filter (fun e => !e.isDeleteMarker)
        (empty_bucket 2 ⟨true, "Enabled",
          [⟨"k1", "v1", false⟩, ⟨"k1", "m1", true⟩, ⟨"k2", "v2", false⟩]⟩).state.entries = [] ∧
      currentObjects (empty_bucket 2 ⟨true, "Enabled",
        [⟨"k1", "v1", false⟩, ⟨"k1", "m1", true⟩, ⟨"k2", "v2", false⟩]⟩).state.entries = [] ∧
      (empty_bucket 2 ⟨true, "Enabled",
        [⟨"k1", "v1", false⟩, ⟨"k1", "m1", true⟩, ⟨"k2", "v2", false⟩]⟩).ops
        = DrainOp.suspendVersioning ::
            ((paginate 2 [⟨"k1", "v1", false⟩, ⟨"k1", "m1", true⟩, ⟨"k2", "v2", false⟩]).map
              pageOpsListed).flatten) :=
  ⟨rfl, rfl,
    drainer_enabled_drains_all 2
      ⟨true, "Enabled", [⟨"k1", "v1", false⟩, ⟨"k1", "m1", true⟩, ⟨"k2", "v2", false⟩]⟩
      rfl rfl⟩

/-- Claim C5, evaluation at the failing input: invoking the drainer on a
container that does not exist reports FAILED, not SUCCESS — the
missing-bucket path raises (the `except ClientError:` clause names an
identifier the module never imports, so handling the load failure raises
NameError), and `lambda_handler` catches it and sends FAILED. -/
theorem drainer_missing_bucket_sends_failed :
    lambda_handler 1000 ⟨"Delete", some "workshop-bucket"⟩
        ⟨false, "", [⟨"artifacts/a.sh", "v1", false⟩]⟩
      = ⟨⟨false, "", [⟨"artifacts/a.sh", "v1", false⟩]⟩, [], CfnStatus.FAILED⟩ ∧
    (empty_bucket 1000 ⟨false, "", [⟨"artifacts/a.sh", "v1", false⟩]⟩).err
      = some (PyErr.nameError "ClientError") :=
  ⟨rfl, rfl⟩

/-- Claim C6: a missing source object fails the whole copy batch: the loop
raises at the first missing name, only the earlier names were copied (the
later ones are never attempted), the invocation reports Failed, and the
within-budget invocation communicates exactly the single FAILED outcome. -/
theorem copy_failure_aborts_batch (st : Store) (sb db pfx bad : String)
    (pre post : List String)
    (hpre : ∀ o ∈ pre, (OMap.get (Store.getB st sb) (pfx ++ o)).isSome = true)
    (hbad : OMap.get (Store.getB st sb) (pfx ++ bad) = none) :
    (copy_objects st sb db pfx (pre ++ bad :: post)).err
        = some (PyErr.noSuchKey sb (pfx ++ bad)) ∧
    (copy_objects st sb db pfx (pre ++ bad :: post)).ops
        = pre.map (fun o => S3Op.copyObject sb db (pfx ++ o)) ∧
    handlerStatus ⟨"Create", some sb, some db, some pfx, some (pre ++ bad :: post)⟩ st
        = CfnStatus.FAILED ∧
    copyZipsSends ⟨"Create", some sb, some db, some pfx, some (pre ++ bad :: post)⟩ st
        false true = [CfnStatus.FAILED] := by
  have h := copy_objects_aborts sb db pfx bad pre post st hpre hbad
  have hb : handlerBody ⟨"Create", some sb, some db, some pfx, some (pre ++ bad :: post)⟩ st
      = copy_objects st sb db pfx (pre ++ bad :: post) := by
    simp [handlerBody]
  refine ⟨h.1, h.2, ?_, ?_⟩
  · simp [handlerStatus, hb, h.1, statusOf]
  · simp [copyZipsSends, handlerStatus, hb, h.1, statusOf]

/-- Witness for C6: source holds "scripts/a.sh" but not "scripts/b.sh". -/
theorem copy_failure_aborts_batch_witness :
    (∀ o ∈ ["a.sh"],
      (OMap.get (Store.getB [("src", [("scripts/a.sh", "x")])] "src")
        ("scripts/" ++ o)).isSome = true) ∧
    OMap.get (Store.getB [("src", [("scripts/a.sh", "x")])] "src") ("scripts/" ++ "b.sh")
      = none ∧
    ((copy_objects [("src", [("scripts/a.sh", "x")])] "src" "dst" "scripts/"
        (["a.sh"] ++ "b.sh" :: ["c.sh"])).err
        = some (PyErr.noSuchKey "src" ("scripts/" ++ "b.sh")) ∧
      (copy_objects [("src", [("scripts/a.sh", "x")])] "src" "dst" "scripts/"
        (["a.sh"] ++ "b.sh" :: ["c.sh"])).ops
        = ["a.sh"].map (fun o => S3Op.copyObject "src" "dst" ("scripts/" ++ o)) ∧
      handlerStatus ⟨"Create", some "src", some "dst", some "scripts/",
          some (["a.sh"] ++ "b.sh" :: ["c.sh"])⟩ [("src", [("scripts/a.sh", "x")])]
        = CfnStatus.FAILED ∧
      copyZipsSends ⟨"Create", some "src", some "dst", some "scripts/",
          some (["a.sh"] ++ "b.sh" :: ["c.sh"])⟩ [("src", [("scripts/a.sh", "x")])]
        false true = [CfnStatus.FAILED]) :=
  ⟨by decide, by decide,
    copy_failure_aborts_batch [("src", [("scripts/a.sh", "x")])] "src" "dst" "scripts/"
      "b.sh" ["a.sh"] ["c.sh"] (by decide) (by decide)⟩

/-- Claim C7: the lifecycle dispatchers route purely on operation kind:
for ObjectCopier, Create/Update run exactly the copy path and Delete runs
exactly the delete-by-name path; for BucketDrainer, Create/Update touch no
storage and still report SUCCESS, while Delete runs exactly `empty_bucket`.
The stated equations fix the whole invocation result (state, full operation
trace, status), so no other storage action is taken on any kind. -/
theorem dispatcher_routing :
    (∀ (st : Store) (rt sb db p : String) (objs : List String),
      (rt = "Create" ∨ rt = "Update") →
        handlerBody ⟨rt, some sb, some db, some p, some objs⟩ st
          = copy_objects st sb db p objs) ∧
    (∀ (st : Store) (sb db p : String) (objs : List String),
      handlerBody ⟨"Delete", some sb, some db, some p, some objs⟩ st
        = delete_objects st db p objs) ∧
    (∀ (ps : Nat) (b : Bucket) (n rt : String),
      (rt = "Create" ∨ rt = "Update") →
        lambda_handler ps ⟨rt, some n⟩ b = ⟨b, [], CfnStatus.SUCCESS⟩) ∧
    (∀ (ps : Nat) (b : Bucket) (n : String),
      lambda_handler ps ⟨"Delete", some n⟩ b
        = ⟨(empty_bucket ps b).state, (empty_bucket ps b).ops,
            statusOf (empty_bucket ps b).err⟩) := by
  refine ⟨?_, ?_, ?_, fun ps b n => lambda_handler_delete ps n b⟩
  · intro st rt sb db p objs h
    rcases h with rfl | rfl <;> simp [handlerBody]
  · intro st sb db p objs
    simp [handlerBody]
  · intro ps b n rt h
    rcases h with rfl | rfl <;> simp [lambda_handler]

/-- Witness for C7 at concrete events of each kind. -/
theorem dispatcher_routing_witness :
    handlerBody ⟨"Create", some "src", some "dst", some "artifacts/", some ["a.sh"]⟩ []
        = copy_objects [] "src" "dst" "artifacts/" ["a.sh"] ∧
    handlerBody ⟨"Delete", some "src", some "dst", some "artifacts/", some ["a.sh"]⟩ []
        = delete_objects [] "dst" "artifacts/" ["a.sh"] ∧
    lambda_handler 5 ⟨"Update", some "bkt"⟩ ⟨true, "", []⟩
        = ⟨⟨true, "", []⟩, [], CfnStatus.SUCCESS⟩ ∧
    lambda_handler 5 ⟨"Delete", some "bkt"⟩ ⟨true, "", []⟩
        = ⟨(empty_bucket 5 ⟨true, "", []⟩).state, (empty_bucket 5 ⟨true, "", []⟩).ops,
            statusOf (empty_bucket 5 ⟨true, "", []⟩).err⟩ :=
  ⟨dispatcher_routing.1 [] "Create" "src" "dst" "artifacts/" ["a.sh"] (Or.inl rfl),
    dispatcher_routing.2.1 [] "src" "dst" "artifacts/" ["a.sh"],
    dispatcher_routing.2.2.1 5 ⟨true, "", []⟩ "bkt" "Update" (Or.inr rfl),
    dispatcher_routing.2.2.2 5 ⟨true, "", []⟩ "bkt"⟩

/-- Claim C8: ObjectCopier performs its per-object storage operations
sequentially in the order the names appear in the request's object list,
one per name — the copy path's trace (when every source object exists) is
exactly one copy per name in list order, and the batch delete's key list is
exactly one delete per name in list order. -/
theorem sequential_one_op_per_name (st : Store) (sb db pfx : String)
    (objs : List String)
    (hall : ∀ o ∈ objs, (OMap.get (Store.getB st sb) (pfx ++ o)).isSome = true) :
    (copy_objects st sb db pfx objs).ops
        = objs.map (fun o => S3Op.copyObject sb db (pfx ++ o)) ∧
    (copy_objects st sb db pfx objs).err = none ∧
    (delete_objects st db pfx objs).ops
        = objs.map (fun o => S3Op.deleteKey db (pfx ++ o)) := by
  have h := copy_objects_complete sb db pfx objs st hall
  refine ⟨h.1, h.2, ?_⟩
  simp [delete_objects]

/-- Witness for C8 on the spec's two-object scenario. -/
theorem sequential_one_op_per_name_witness :
    (∀ o ∈ ["a.sh", "b.sh"],
      (OMap.get (Store.getB
        [("src", [("artifacts/a.sh", "x"), ("artifacts/b.sh", "y")])] "src")
        ("artifacts/" ++ o)).isSome = true) ∧
    ((copy_objects [("src", [("artifacts/a.sh", "x"), ("artifacts/b.sh", "y")])]
        "src" "dst" "artifacts/" ["a.sh", "b.sh"]).ops
        = ["a.sh", "b.sh"].map (fun o => S3Op.copyObject "src" "dst" ("artifacts/" ++ o)) ∧
      (copy_objects [("src", [("artifacts/a.sh", "x"), ("artifacts/b.sh", "y")])]
        "src" "dst" "artifacts/" ["a.sh", "b.sh"]).err = none ∧
      (delete_objects [("src", [("artifacts/a.sh", "x"), ("artifacts/b.sh", "y")])]
        "dst" "artifacts/" ["a.sh", "b.sh"]).ops
        = ["a.sh", "b.sh"].map (fun o => S3Op.deleteKey "dst" ("artifacts/" ++ o))) :=
  ⟨by decide,
    sequential_one_op_per_name
      [("src", [("artifacts/a.sh", "x"), ("artifacts/b.sh", "y")])]
      "src" "dst" "artifacts/" ["a.sh", "b.sh"] (by decide)⟩

/-- Claim C9: ObjectCopier's delete-by-name path modifies nothing outside the
destination container: every bucket other than the destination (in
particular the source bucket, which the path never names) is untouched, and
within the destination only the keys prefix+name for listed names change;
the path raises nothing. -/
theorem delete_path_frame (st : Store) (sb db pfx : String) (objs : List String) :
    (sb ≠ db → Store.getB (delete_objects st db pfx objs).state sb = Store.getB st sb) ∧
    (∀ bn, bn ≠ db →
      Store.getB (delete_objects st db pfx objs).state bn = Store.getB st bn) ∧
    (∀ q, (∀ o ∈ objs, q ≠ pfx ++ o) →
      OMap.get (Store.getB (delete_objects st db pfx objs).state db) q
        = OMap.get (Store.getB st db) q) ∧
    (delete_objects st db pfx objs).err = none := by
  refine ⟨fun h => delete_objects_getB st db pfx objs sb h,
    fun bn h => delete_objects_getB st db pfx objs bn h, ?_, rfl⟩
  intro q hq
  rw [delete_objects_get, if_neg ?_]
  intro hmem
  obtain ⟨o, ho, heq⟩ := List.mem_map.mp hmem
  exact hq o ho heq.symm

/-- Witness for C9 at a concrete two-bucket store. -/
theorem delete_path_frame_witness :
    ("src" ≠ "dst" →
      Store.getB (delete_objects
          [("src", [("artifacts/a.sh", "x")]), ("dst", [("artifacts/a.sh", "x"), ("other", "z")])]
          "dst" "artifacts/" ["a.sh"]).state "src"
        = Store.getB
          [("src", [("artifacts/a.sh", "x")]), ("dst", [("artifacts/a.sh", "x"), ("other", "z")])]
          "src") ∧
    Store.getB (delete_objects
        [("src", [("artifacts/a.sh", "x")]), ("dst", [("artifacts/a.sh", "x"), ("other", "z")])]
        "dst" "artifacts/" ["a.sh"]).state "src"
      = Store.getB
        [("src", [("artifacts/a.sh", "x")]), ("dst", [("artifacts/a.sh", "x"), ("other", "z")])]
        "src" ∧
    OMap.get (Store.getB (delete_objects
        [("src", [("artifacts/a.sh", "x")]), ("dst", [("artifacts/a.sh", "x"), ("other", "z")])]
        "dst" "artifacts/" ["a.sh"]).state "dst") "other"
      = OMap.get (Store.getB
        [("src", [("artifacts/a.sh", "x")]), ("dst", [("artifacts/a.sh", "x"), ("other", "z")])]
        "dst") "other" :=
  ⟨(delete_path_frame
      [("src", [("artifacts/a.sh", "x")]), ("dst", [("artifacts/a.sh", "x"), ("other", "z")])]
      "src" "dst" "artifacts/" ["a.sh"]).1,
    (delete_path_frame
      [("src", [("artifacts/a.sh", "x")]), ("dst", [("artifacts/a.sh", "x"), ("other", "z")])]
      "src" "dst" "artifacts/" ["a.sh"]).2.1 "src" (by decide),
    (delete_path_frame
      [("src", [("artifacts/a.sh", "x")]), ("dst", [("artifacts/a.sh", "x"), ("other", "z")])]
      "src" "dst" "artifacts/" ["a.sh"]).2.2.1 "other" (by decide)⟩

/-- Claim C10: both handlers extract every required resource property before
any storage call, so an event missing one makes the invocation report
FAILED with the storage state unchanged and an empty operation trace. -/
theorem missing_property_no_side_effects :
    (∀ (ev : CopyEvent) (st : Store),
      (ev.sourceBucket = none ∨ ev.destBucket = none ∨ ev.pfx = none ∨
          ev.objects = none) →
        (handlerBody ev st).state = st ∧ (handlerBody ev st).ops = [] ∧
          (handlerBody ev st).err.isSome = true ∧
          handlerStatus ev st = CfnStatus.FAILED) ∧
    (∀ (ps : Nat) (evc : CleanupEvent) (b : Bucket),
      evc.inputBucketName = none →
        lambda_handler ps evc b = ⟨b, [], CfnStatus.FAILED⟩) := by
  constructor
  · rintro ⟨rt, sb, db, p, objs⟩ st h
    rcases sb with _ | sb
    · exact ⟨rfl, rfl, rfl, rfl⟩
    rcases db with _ | db
    · exact ⟨rfl, rfl, rfl, rfl⟩
    rcases p with _ | p
    · exact ⟨rfl, rfl, rfl, rfl⟩
    rcases objs with _ | objs
    · exact ⟨rfl, rfl, rfl, rfl⟩
    · simp at h
  · rintro ps ⟨rt, bn⟩ b h
    rcases bn with _ | n
    · rfl
    · simp at h

/-- Witness for C10: an event lacking its object list, and a drainer event
lacking its bucket name. -/
theorem missing_property_no_side_effects_witness :
    ((⟨"Create", some "src", some "dst", some "artifacts/", none⟩ : CopyEvent).sourceBucket
        = none ∨
      (⟨"Create", some "src", some "dst", some "artifacts/", none⟩ : CopyEvent).destBucket
        = none ∨
      (⟨"Create", some "src", some "dst", some "artifacts/", none⟩ : CopyEvent).pfx = none ∨
      (⟨"Create", some "src", some "dst", some "artifacts/", none⟩ : CopyEvent).objects
        = none) ∧
    ((handlerBody ⟨"Create", some "src", some "dst", some "artifacts/", none⟩
        [("src", [("artifacts/a.sh", "x")])]).state = [("src", [("artifacts/a.sh", "x")])] ∧
      (handlerBody ⟨"Create", some "src", some "dst", some "artifacts/", none⟩
        [("src", [("artifacts/a.sh", "x")])]).ops = [] ∧
      (handlerBody ⟨"Create", some "src", some "dst", some "artifacts/", none⟩
        [("src", [("artifacts/a.sh", "x")])]).err.isSome = true ∧
      handlerStatus ⟨"Create", some "src", some "dst", some "artifacts/", none⟩
        [("src", [("artifacts/a.sh", "x")])] = CfnStatus.FAILED) ∧
    lambda_handler 7 ⟨"Delete", none⟩ ⟨true, "", []⟩
      = ⟨⟨true, "", []⟩, [], CfnStatus.FAILED⟩ :=
  ⟨Or.inr (Or.inr (Or.inr rfl)),
    missing_property_no_side_effects.1
      ⟨"Create", some "src", some "dst", some "artifacts/", none⟩
      [("src", [("artifacts/a.sh", "x")])] (Or.inr (Or.inr (Or.inr rfl))),
    missing_property_no_side_effects.2 7 ⟨"Delete", none⟩ ⟨true, "", []⟩ rfl⟩

end EmrTemplate
